import Mathlib

/-!
# Verification of `block-analyser` (josibake/block-analyser)

Shallow embedding of `src/main.rs` (and the network parsing in `main`).

Modelling conventions:
* A script public key (`ScriptPubkey.get()` in Rust) is a `List Nat` of byte
  values.
* The external kernel client is modelled as a function `Int → HeightData`
  describing, for each height, what the calls
  `get_block_index_by_height` / `read_undo_data` / `get_prevout_by_index`
  return.  `HeightData.indexErr` models a failing block-index lookup,
  `HeightData.undoErr` a successful lookup whose undo-data read fails, and
  `HeightData.undo txs` successful undo data: one entry per transaction,
  each a list with one entry per input (`transaction_undo_size` many);
  `some spk` models `get_prevout_by_index` returning `Ok` with script `spk`,
  `none` models it returning `Err`.
* Block heights are `i32` in Rust and are modelled as `Int`; the counters
  are modelled as unbounded `Nat`.  The Rust counters are `u32` (via
  `as u32` casts); for any block data a real chain can produce the counts
  are far below `2^32`, so no wrap-around is modelled.
* The parallel `rayon` loop pushes one record per successfully looked-up
  height into a mutex-guarded vector, in an arbitrary completion order,
  and the final list is sorted by height (`sort_by_key`, a stable sort,
  modelled by `List.insertionSort` on the height key).  The completion
  order is modelled explicitly: `process_blocks_order` takes the order in
  which heights finish as a parameter, and `process_blocks` instantiates
  it with the enumeration order of `(start..=end)`.
* `write_results_to_csv` is modelled as the string written to the file
  (`writeln!` appends a newline after the header and after every row).
-/

/-- `is_p2tr` from `src/main.rs`: a script public key is P2TR iff it is
exactly 34 bytes, byte 0 is `0x51` (`OP_1`) and byte 1 is `0x20`
(push of 32 bytes). -/
def is_p2tr (spk_bytes : List Nat) : Bool :=
  if spk_bytes.length ≠ 34 then false
  else spk_bytes.getD 0 0 == 0x51 && spk_bytes.getD 1 0 == 0x20

/-- The per-block record pushed into the shared vector (struct
`BlockResult` in `src/main.rs`). -/
structure BlockResult where
  height : Int
  total_txs : Nat
  total_inputs : Nat
  mixed_tx_count : Nat
  schnorr_sigs : Nat
  non_schnorr_sigs : Nat
deriving Repr, DecidableEq

/-- What the kernel client reports for one height (see module docstring). -/
inductive HeightData where
  | indexErr : HeightData
  | undoErr : HeightData
  | undo (txs : List (List (Option (List Nat)))) : HeightData

/-- A kernel client: per-height behaviour of the external library. -/
abbrev KernelClient := Int → HeightData

/-- The per-transaction mutable state of the inner loop of
`process_blocks`: the flags `has_schnorr` / `has_non_schnorr` and the
running block-level counters `schnorr_count` / `non_schnorr_count`. -/
structure TxAcc where
  has_schnorr : Bool
  has_non_schnorr : Bool
  schnorr : Nat
  non_schnorr : Nat
deriving Repr, DecidableEq

/-- One iteration of the prevout loop (`for j in 0..transaction_undo_size`)
of `process_blocks`: a successful `get_prevout_by_index` is classified with
`is_p2tr`; a failed read (`none`) changes nothing. -/
def processPrevout (acc : TxAcc) (p : Option (List Nat)) : TxAcc :=
  match p with
  | none => acc
  | some spk =>
    if is_p2tr spk then
      { acc with has_schnorr := true, schnorr := acc.schnorr + 1 }
    else
      { acc with has_non_schnorr := true, non_schnorr := acc.non_schnorr + 1 }

/-- The block-level mutable counters of `process_blocks`. -/
structure BlockAcc where
  mixed_tx_count : Nat
  schnorr_count : Nat
  non_schnorr_count : Nat
  total_inputs : Nat
deriving Repr, DecidableEq

/-- One iteration of the transaction loop (`for i in 0..undo.n_tx_undo`) of
`process_blocks`: `total_inputs += transaction_undo_size`, each prevout is
processed, and `mixed_tx_count` is bumped iff the transaction saw both a
taproot and a non-taproot prevout. -/
def processTx (acc : BlockAcc) (tx : List (Option (List Nat))) : BlockAcc :=
  let t := tx.foldl processPrevout ⟨false, false, 0, 0⟩
  { mixed_tx_count :=
      acc.mixed_tx_count + (if t.has_schnorr && t.has_non_schnorr then 1 else 0),
    schnorr_count := acc.schnorr_count + t.schnorr,
    non_schnorr_count := acc.non_schnorr_count + t.non_schnorr,
    total_inputs := acc.total_inputs + tx.length }

/-- The body of the parallel closure in `process_blocks` for one height:
`none` when the block-index lookup fails (nothing is pushed), an all-zero
record when the undo read fails, and the aggregated counts otherwise. -/
def processHeight (client : KernelClient) (height : Int) : Option BlockResult :=
  match client height with
  | .indexErr => none
  | .undoErr => some ⟨height, 0, 0, 0, 0, 0⟩
  | .undo txs =>
    let acc := txs.foldl processTx ⟨0, 0, 0, 0⟩
    some ⟨height, txs.length, acc.total_inputs, acc.mixed_tx_count,
          acc.schnorr_count, acc.non_schnorr_count⟩

/-- `(start..=end).collect()` in `process_blocks`. -/
def heightRange (s e : Int) : List Int :=
  (List.range (e + 1 - s).toNat).map (fun (i : Nat) => s + (i : Int))

/-- Comparison used by `sort_by_key(|r| r.height)`. -/
def brLE (a b : BlockResult) : Prop := a.height ≤ b.height

instance : DecidableRel brLE := fun a b => inferInstanceAs (Decidable (a.height ≤ b.height))

instance : IsTotal BlockResult brLE := ⟨fun a b => Int.le_total a.height b.height⟩

instance : IsTrans BlockResult brLE := ⟨fun _ _ _ hab hbc => le_trans hab hbc⟩

/-- `process_blocks` with the completion order of the parallel workers made
explicit: `order` is the order in which heights push their record into the
mutex-guarded vector (a permutation of the height list), after which the
vector is sorted by height. -/
def process_blocks_order (client : KernelClient) (order : List Int) : List BlockResult :=
  List.insertionSort brLE (order.filterMap (processHeight client))

/-- `process_blocks` from `src/main.rs` (its result; the completion order
is irrelevant, see `process_blocks_order_eq`). -/
def process_blocks (client : KernelClient) (s e : Int) : List BlockResult :=
  process_blocks_order client (heightRange s e)

/-- The CSV header line written by `write_results_to_csv`. -/
def csv_header : String :=
  "height,total_txs,total_inputs,mixed_tx_count,schnorr_sigs,non_schnorr_sigs"

/-- One data row of the CSV (the `writeln!` format string, newline
excluded). -/
def csvRow (r : BlockResult) : String :=
  toString r.height ++ "," ++ toString r.total_txs ++ "," ++
    toString r.total_inputs ++ "," ++ toString r.mixed_tx_count ++ "," ++
    toString r.schnorr_sigs ++ "," ++ toString r.non_schnorr_sigs

/-- `write_results_to_csv` from `src/main.rs`, modelled as the full file
contents: the header line then one line per record, each `writeln!`
terminated by a newline. -/
def write_results_to_csv (results : List BlockResult) : String :=
  csv_header ++ "\n" ++ String.join (results.map (fun r => csvRow r ++ "\n"))

/-- The four chain types the `--network` flag can select. -/
inductive ChainType where
  | MAINNET | TESTNET | REGTEST | SIGNET
deriving Repr, DecidableEq

/-- Rust's `str::to_lowercase`, modelled as per-character ASCII
lowercasing (`Char.toLower` maps `A`..`Z` to `a`..`z` and fixes everything
else).  Rust applies the full Unicode mapping, but no character outside
`A`..`Z` lowercases to any letter of `mainnet` / `testnet` / `regtest` /
`signet`, so the two functions agree on every input that matters to
`parseNetwork`. -/
def toLowercase (s : String) : String := ⟨s.data.map Char.toLower⟩

/-- The `match args.network.to_lowercase().as_str()` in `main`
(`src/main.rs`): `none` models the wildcard arm, which exits with code 1
before any chain access. -/
def parseNetwork (s : String) : Option ChainType :=
  let l := toLowercase s
  if l = "mainnet" then some ChainType.MAINNET
  else if l = "testnet" then some ChainType.TESTNET
  else if l = "regtest" then some ChainType.REGTEST
  else if l = "signet" then some ChainType.SIGNET
  else none

/-- Kernel stub for the concrete scenario of §8 of the spec: at height 100,
two transactions, one with one taproot and one non-taproot prevout, one
with two non-taproot prevouts; every other height fails lookup. -/
def c7client : KernelClient := fun h =>
  if h = 100 then
    HeightData.undo
      [[some (0x51 :: 0x20 :: List.replicate 32 0), some [0x00, 0x14]],
       [some [0x00, 0x14], some [0x76, 0xa9]]]
  else HeightData.indexErr

/-- Kernel stub where every block-index lookup succeeds but every undo
read fails. -/
def undoErrClient : KernelClient := fun _ => HeightData.undoErr

/-- Kernel stub for the concrete scenario of §8 of the spec: block-index
lookup fails at height 105 and succeeds elsewhere. -/
def c5client : KernelClient := fun h =>
  if h = 105 then HeightData.indexErr else HeightData.undoErr

/-! ## Helper lemmas -/

lemma processHeight_height {client : KernelClient} {h : Int} {r : BlockResult}
    (hr : processHeight client h = some r) : r.height = h := by
  cases hc : client h <;> simp [processHeight, hc] at hr <;> simp [← hr]

lemma mem_filterMap_processHeight {client : KernelClient} {l : List Int} {r : BlockResult} :
    r ∈ l.filterMap (processHeight client) ↔
      r.height ∈ l ∧ processHeight client r.height = some r := by
  rw [List.mem_filterMap]
  constructor
  · rintro ⟨h, hmem, hph⟩
    have hh := processHeight_height hph
    exact ⟨hh ▸ hmem, hh ▸ hph⟩
  · rintro ⟨hm, hph⟩
    exact ⟨r.height, hm, hph⟩

lemma filterMap_heights_sublist (client : KernelClient) (l : List Int) :
    ((l.filterMap (processHeight client)).map BlockResult.height).Sublist l := by
  induction l with
  | nil => simp
  | cons h t ih =>
    cases hph : processHeight client h with
    | none =>
      rw [List.filterMap_cons_none hph]
      exact ih.cons h
    | some r =>
      rw [List.filterMap_cons_some hph, List.map_cons, processHeight_height hph]
      exact ih.cons₂ h

lemma mem_heightRange {s e h : Int} : h ∈ heightRange s e ↔ s ≤ h ∧ h ≤ e := by
  unfold heightRange
  rw [List.mem_map]
  constructor
  · rintro ⟨i, hi, rfl⟩
    rw [List.mem_range] at hi
    omega
  · rintro ⟨h1, h2⟩
    refine ⟨(h - s).toNat, ?_, ?_⟩
    · rw [List.mem_range]
      omega
    · omega

lemma heightRange_pairwise (s e : Int) : (heightRange s e).Pairwise (· < ·) := by
  unfold heightRange
  rw [List.pairwise_map]
  exact (List.pairwise_lt_range _).imp (fun hab => by omega)

lemma canonical_pairwise (client : KernelClient) (s e : Int) :
    ((heightRange s e).filterMap (processHeight client)).Pairwise
      (fun a b => a.height < b.height) := by
  have h1 : (((heightRange s e).filterMap (processHeight client)).map
      BlockResult.height).Pairwise (fun a b => a < b) :=
    (heightRange_pairwise s e).sublist (filterMap_heights_sublist client _)
  exact (List.pairwise_map).mp h1

lemma eq_of_perm_of_sorted_of_strict (l₁ l₂ : List BlockResult) (hp : l₁.Perm l₂)
    (h₁ : l₁.Pairwise brLE) (h₂ : l₂.Pairwise (fun a b => a.height < b.height)) :
    l₁ = l₂ := by
  induction l₁ generalizing l₂ with
  | nil => exact (hp.symm.eq_nil).symm
  | cons a t₁ ih =>
    cases l₂ with
    | nil => exact hp.eq_nil
    | cons b t₂ =>
      have hab : a = b := by
        have ha2 : a ∈ b :: t₂ := hp.subset (List.mem_cons_self a t₁)
        rcases List.mem_cons.mp ha2 with h | h
        · exact h
        · exfalso
          have hba : b.height < a.height := (List.pairwise_cons.mp h₂).1 a h
          have hb1 : b ∈ a :: t₁ := hp.symm.subset (List.mem_cons_self b t₂)
          rcases List.mem_cons.mp hb1 with hba2 | hba2
          · rw [hba2] at hba
            exact lt_irrefl _ hba
          · have hle : a.height ≤ b.height := (List.pairwise_cons.mp h₁).1 b hba2
            exact absurd hba (not_lt.mpr hle)
      subst hab
      have hrec := ih t₂ hp.cons_inv (List.pairwise_cons.mp h₁).2 (List.pairwise_cons.mp h₂).2
      rw [hrec]

lemma process_blocks_order_eq (client : KernelClient) (s e : Int) (order : List Int)
    (hperm : order.Perm (heightRange s e)) :
    process_blocks_order client order =
      (heightRange s e).filterMap (processHeight client) := by
  apply eq_of_perm_of_sorted_of_strict
  · exact (List.perm_insertionSort brLE _).trans (hperm.filterMap _)
  · exact List.sorted_insertionSort brLE _
  · exact canonical_pairwise client s e

lemma process_blocks_eq (client : KernelClient) (s e : Int) :
    process_blocks client s e = (heightRange s e).filterMap (processHeight client) :=
  process_blocks_order_eq client s e _ (List.Perm.refl _)

lemma mem_process_blocks {client : KernelClient} {s e : Int} {r : BlockResult} :
    r ∈ process_blocks client s e ↔
      r.height ∈ heightRange s e ∧ processHeight client r.height = some r := by
  rw [process_blocks_eq]
  exact mem_filterMap_processHeight

lemma process_blocks_pairwise (client : KernelClient) (s e : Int) :
    (process_blocks client s e).Pairwise (fun a b => a.height < b.height) := by
  rw [process_blocks_eq]
  exact canonical_pairwise client s e

lemma processHeight_indexErr {client : KernelClient} {h : Int}
    (hc : client h = HeightData.indexErr) : processHeight client h = none := by
  simp [processHeight, hc]

lemma processHeight_undoErr {client : KernelClient} {h : Int}
    (hc : client h = HeightData.undoErr) :
    processHeight client h = some ⟨h, 0, 0, 0, 0, 0⟩ := by
  simp [processHeight, hc]

/-- C1: `is_p2tr` returns `true` iff the byte sequence is exactly 34 bytes
long with byte 0 equal to `0x51` and byte 1 equal to `0x20`; no byte other
than the length and the first two bytes affects the result (the function
is total, so it never fails). -/
theorem C1_is_p2tr_spec (spk spk2 : List Nat)
    (hlen : spk.length = spk2.length)
    (h0 : spk.getD 0 0 = spk2.getD 0 0)
    (h1 : spk.getD 1 0 = spk2.getD 1 0) :
    (is_p2tr spk = true ↔
      spk.length = 34 ∧ spk.getD 0 0 = 0x51 ∧ spk.getD 1 0 = 0x20) ∧
    is_p2tr spk = is_p2tr spk2 := by
  constructor
  · unfold is_p2tr
    by_cases hl : spk.length = 34
    · simp [hl]
    · simp [hl]
  · unfold is_p2tr
    rw [hlen, h0, h1]

theorem C1_is_p2tr_spec_witness :
    ((is_p2tr (0x51 :: 0x20 :: List.replicate 32 0) = true ↔
        (0x51 :: 0x20 :: List.replicate 32 0 : List Nat).length = 34 ∧
        (0x51 :: 0x20 :: List.replicate 32 0 : List Nat).getD 0 0 = 0x51 ∧
        (0x51 :: 0x20 :: List.replicate 32 0 : List Nat).getD 1 0 = 0x20) ∧
      is_p2tr (0x51 :: 0x20 :: List.replicate 32 0)
        = is_p2tr (0x51 :: 0x20 :: List.replicate 32 7)) :=
  C1_is_p2tr_spec _ _ (by decide) (by decide) (by decide)

/-- C7: with the synthetic kernel stub reporting two transactions at
height 100 (one with one taproot and one non-taproot prevout, one with two
non-taproot prevouts), the scan of `[100, 100]` yields exactly
`BlockResult 100 2 4 1 1 3`. -/
theorem C7_concrete_scenario :
    process_blocks c7client 100 100 = [⟨100, 2, 4, 1, 1, 3⟩] := by
  decide

/-- C8: when `start > end` the scan returns no records and the CSV written
for the empty result list is exactly the header row. -/
theorem C8_empty_range (client : KernelClient) (s e : Int) (h : e < s) :
    process_blocks client s e = [] ∧
      write_results_to_csv [] =
        "height,total_txs,total_inputs,mixed_tx_count,schnorr_sigs,non_schnorr_sigs\n" := by
  constructor
  · have hz : (e + 1 - s).toNat = 0 := by omega
    rw [process_blocks, process_blocks_order, heightRange, hz]
    rfl
  · rfl

theorem C8_empty_range_witness :
    process_blocks undoErrClient 5 3 = [] ∧
      write_results_to_csv [] =
        "height,total_txs,total_inputs,mixed_tx_count,schnorr_sigs,non_schnorr_sigs\n" :=
  C8_empty_range undoErrClient 5 3 (by decide)

/-- C10: the `--network` argument is matched after lowercasing: any string
whose lowercase form is `mainnet` / `testnet` / `regtest` / `signet`
selects the corresponding chain type, and any other string falls through
to the wildcard arm (`parseNetwork` = `none`, modelling the exit with a
non-zero code before any chain access). -/
theorem C10_network_parsing (s : String) :
    (toLowercase s = "mainnet" → parseNetwork s = some ChainType.MAINNET) ∧
    (toLowercase s = "testnet" → parseNetwork s = some ChainType.TESTNET) ∧
    (toLowercase s = "regtest" → parseNetwork s = some ChainType.REGTEST) ∧
    (toLowercase s = "signet" → parseNetwork s = some ChainType.SIGNET) ∧
    (toLowercase s ≠ "mainnet" → toLowercase s ≠ "testnet" →
      toLowercase s ≠ "regtest" → toLowercase s ≠ "signet" →
        parseNetwork s = none) := by
  refine ⟨?_, ?_, ?_, ?_, ?_⟩ <;> intros <;> simp_all [parseNetwork]

theorem C10_network_parsing_witness :
    parseNetwork "MainNet" = some ChainType.MAINNET ∧ parseNetwork "foo" = none :=
  ⟨(C10_network_parsing "MainNet").1 (by decide),
   (C10_network_parsing "foo").2.2.2.2 (by decide) (by decide) (by decide) (by decide)⟩

/-- C3: whatever order the parallel workers complete in (any permutation
of the enumerated height list), the returned records are strictly
ascending by height — hence height-duplicate-free — and every reported
height lies within `[start, end]`. -/
theorem C3_ordering (client : KernelClient) (s e : Int) (order : List Int)
    (hperm : order.Perm (heightRange s e)) :
    (process_blocks_order client order).Pairwise (fun a b => a.height < b.height) ∧
      ∀ r ∈ process_blocks_order client order, s ≤ r.height ∧ r.height ≤ e := by
  rw [process_blocks_order_eq client s e order hperm]
  refine ⟨canonical_pairwise client s e, ?_⟩
  intro r hr
  obtain ⟨hmem, _⟩ := mem_filterMap_processHeight.mp hr
  exact mem_heightRange.mp hmem

theorem C3_ordering_witness :
    (process_blocks_order undoErrClient [1, 0]).Pairwise
        (fun a b => a.height < b.height) ∧
      ∀ r ∈ process_blocks_order undoErrClient [1, 0],
        (0 : Int) ≤ r.height ∧ r.height ≤ 1 :=
  C3_ordering undoErrClient 0 1 [1, 0] (by decide)

/-- C4: a height whose block-index lookup succeeds but whose undo read
fails is reported with all counts zero, and every other height of the
range that produces a record is still reported. -/
theorem C4_undo_failure_zero_filled (client : KernelClient) (s e h : Int)
    (hmem : h ∈ heightRange s e) (hc : client h = HeightData.undoErr) :
    (⟨h, 0, 0, 0, 0, 0⟩ : BlockResult) ∈ process_blocks client s e ∧
      ∀ h2 r, h2 ∈ heightRange s e → processHeight client h2 = some r →
        r ∈ process_blocks client s e := by
  constructor
  · exact mem_process_blocks.mpr ⟨hmem, processHeight_undoErr hc⟩
  · intro h2 r hm2 hr2
    have hh := processHeight_height hr2
    exact mem_process_blocks.mpr ⟨hh ▸ hm2, hh ▸ hr2⟩

theorem C4_undo_failure_zero_filled_witness :
    (⟨1, 0, 0, 0, 0, 0⟩ : BlockResult) ∈ process_blocks undoErrClient 0 1 ∧
      ∀ h2 r, h2 ∈ heightRange 0 1 → processHeight undoErrClient h2 = some r →
        r ∈ process_blocks undoErrClient 0 1 :=
  C4_undo_failure_zero_filled undoErrClient 0 1 1 (by decide) rfl

/-- C5: a height whose block-index lookup fails yields no record for that
height, and does not prevent any other height of the range that produces
a record from being reported. -/
theorem C5_lookup_failure_skipped (client : KernelClient) (s e h : Int)
    (hc : client h = HeightData.indexErr) :
    (∀ r ∈ process_blocks client s e, r.height ≠ h) ∧
      ∀ h2 r, h2 ∈ heightRange s e → h2 ≠ h → processHeight client h2 = some r →
        r ∈ process_blocks client s e := by
  constructor
  · intro r hr heq
    obtain ⟨_, hph⟩ := mem_process_blocks.mp hr
    rw [heq, processHeight_indexErr hc] at hph
    cases hph
  · intro h2 r hm2 _ hr2
    have hh := processHeight_height hr2
    exact mem_process_blocks.mpr ⟨hh ▸ hm2, hh ▸ hr2⟩

theorem C5_lookup_failure_skipped_witness :
    (∀ r ∈ process_blocks c5client 100 110, r.height ≠ 105) ∧
      ∀ h2 r, h2 ∈ heightRange 100 110 → h2 ≠ 105 →
        processHeight c5client h2 = some r →
          r ∈ process_blocks c5client 100 110 :=
  C5_lookup_failure_skipped c5client 100 110 105 rfl

/-- C9: for a fixed height range and a fixed deterministic kernel client,
two runs of the scan-and-report pipeline write byte-identical CSV output,
whatever completion orders the two runs' parallel workers had. -/
theorem C9_deterministic_csv (client : KernelClient) (s e : Int)
    (order1 order2 : List Int)
    (h1 : order1.Perm (heightRange s e)) (h2 : order2.Perm (heightRange s e)) :
    write_results_to_csv (process_blocks_order client order1)
      = write_results_to_csv (process_blocks_order client order2) := by
  rw [process_blocks_order_eq client s e order1 h1,
      process_blocks_order_eq client s e order2 h2]

theorem C9_deterministic_csv_witness :
    write_results_to_csv (process_blocks_order undoErrClient [1, 0])
      = write_results_to_csv (process_blocks_order undoErrClient [0, 1]) :=
  C9_deterministic_csv undoErrClient 0 1 [1, 0] [0, 1] (by decide) (by decide)
